import Mathlib

/-!
Shallow embedding of the Near-Intent-ChainSig orderbook contract
(`src/orderbook-contract/src/lib.rs`) and of the embedded light client
(`src/light-client/src/lib.rs`).

Conventions of the embedding:
* `u128` amounts are `Nat` values; `i128` values are `Int` values.  Arithmetic
  on amounts is checked: an operation whose Rust counterpart would overflow or
  underflow returns `none`, which models the contract panicking and the NEAR
  runtime rolling the transaction back.
* Every NEAR `UnorderedMap` / `LookupMap` is an association list
  (`List (key × value)`) with first-match lookup, in-place replacing insert and
  filtering removal.
* A contract method that can panic is a function `… → Option State`: `some`
  is the committed post-state, `none` is the rolled-back transaction.  Promise
  dispatch (signer / light-client cross-contract calls) is outside the state
  machine; the callbacks (`on_signed`) are modelled as their own entry points
  taking the external result as an argument.
-/

set_option maxRecDepth 8000

/-- Modulus of Rust's `u128`. -/
def TWO128 : Nat := 2 ^ 128

/-- Smallest value of Rust's `i128`. -/
def i128Min : Int := -(2 ^ 127)

/-- Largest value of Rust's `i128`. -/
def i128Max : Int := 2 ^ 127 - 1

/-- Modelled from the spec: the repository's build profile is not under
`src/`, and the spec (§3, "All arithmetic on amounts must detect overflow and
fail the containing operation") mandates checked `u128` addition, so `+` on
amounts fails (`none`) instead of wrapping. -/
def checkedAddU128 (a b : Nat) : Option Nat :=
  if a + b < TWO128 then some (a + b) else none

/-- Modelled from the spec: checked `u128` subtraction (underflow fails). -/
def checkedSubU128 (a b : Nat) : Option Nat :=
  if b ≤ a then some (a - b) else none

/-- Modelled from the spec: checked `u128` multiplication (overflow fails). -/
def checkedMulU128 (a b : Nat) : Option Nat :=
  if a * b < TWO128 then some (a * b) else none

/-- Modelled from the spec: checked `i128` addition (overflow fails). -/
def checkedAddI128 (a b : Int) : Option Int :=
  if i128Min ≤ a + b ∧ a + b ≤ i128Max then some (a + b) else none

/-- Modelled from the spec: checked `i128` subtraction (overflow fails). -/
def checkedSubI128 (a b : Int) : Option Int :=
  if i128Min ≤ a - b ∧ a - b ≤ i128Max then some (a - b) else none

/-- Rust's `u128 as i128` cast: a plain bit reinterpretation that wraps
(never panics, independent of the overflow-check profile). -/
def wrapI128 (u : Nat) : Int :=
  if u < 2 ^ 127 then (u : Int) else (u : Int) - 2 ^ 128

/-- First-match lookup in an association list (the embedding of reads from a
NEAR `UnorderedMap`). -/
def alookup {K V : Type} [DecidableEq K] : List (K × V) → K → Option V
  | [], _ => none
  | (k', v') :: t, k => if k' = k then some v' else alookup t k

/-- Insert-or-replace in an association list (the embedding of
`UnorderedMap::insert`). -/
def ainsert {K V : Type} [DecidableEq K] : List (K × V) → K → V → List (K × V)
  | [], k, v => [(k, v)]
  | (k', v') :: t, k, v => if k' = k then (k, v) :: t else (k', v') :: ainsert t k v

/-- Key removal from an association list (the embedding of
`UnorderedMap::remove`). -/
def aremove {K V : Type} [DecidableEq K] : List (K × V) → K → List (K × V)
  | [], _ => []
  | (k', v') :: t, k => if k' = k then aremove t k else (k', v') :: aremove t k

/-- Chain tag, `ChainType` in both contracts. -/
inductive ChainType : Type
  | BTC
  | ETH
  | SOL
  deriving DecidableEq, Repr

/-- Status shared by intents and sub-intents, `IntentStatus` in the source. -/
inductive IntentStatus : Type
  | Open
  | Filled
  | Taken
  | Verifying
  | Settled
  | TransitionVerifying
  | Completed
  deriving DecidableEq, Repr

/-- An open order, `Intent` in the source. -/
structure Intent : Type where
  id : Nat
  maker : String
  src_asset : String
  src_amount : Nat
  filled_amount : Nat
  dst_asset : String
  dst_amount : Nat
  status : IntentStatus
  deriving DecidableEq, Repr

/-- A per-taker slice of an intent, `SubIntent` in the source. -/
structure SubIntent : Type where
  id : Nat
  parent_intent_id : Nat
  taker : String
  amount : Nat
  status : IntentStatus
  deriving DecidableEq, Repr

/-- Expected outbound transfer, `TransitionExpectation` in the source. -/
structure TransitionExpectation : Type where
  sub_intent_id : Nat
  chain_type : ChainType
  expected_asset : String
  expected_amount : Nat
  expected_memo : String
  deriving DecidableEq, Repr

/-- Pending external-chain withdrawal, `PendingWithdrawal` in the source. -/
structure PendingWithdrawal : Type where
  user : String
  asset : String
  amount : Nat
  deriving DecidableEq, Repr

/-- One leg of a batch, `MatchParams` in the source.  The `payload` and `path`
fields of the Rust struct only feed the outgoing signer promise, which is
outside the embedded state machine, so they are omitted here. -/
structure MatchParams : Type where
  intent_id : Nat
  fill_amount : Nat
  get_amount : Nat
  transition_chain_type : ChainType
  deriving DecidableEq, Repr

/-- Contract state, `Orderbook` in the source.  The `owner`, `mpc_contract`
and `light_client_contract` account fields only gate methods outside the
claims under study and address promises, so they are omitted. -/
structure Orderbook : Type where
  balances : List (String × List (String × Nat))
  intents : List (Nat × Intent)
  sub_intents : List (Nat × SubIntent)
  transition_expectations : List (Nat × TransitionExpectation)
  pending_withdrawals : List (Nat × PendingWithdrawal)
  next_id : Nat
  deriving DecidableEq, Repr

/-- Embedding of `Orderbook::internal_transfer` (lib.rs:454-461): credit
`amount` of `asset` to `user`, creating the per-user sub-map on first use.
`none` models the checked `cur + amount` overflowing. -/
def internal_transfer (st : Orderbook) (user asset : String) (amount : Nat) : Option Orderbook :=
  let bals := (alookup st.balances user).getD []
  let cur := (alookup bals asset).getD 0
  (checkedAddU128 cur amount).map (fun v =>
    { st with balances := ainsert st.balances user (ainsert bals asset v) })

/-- Embedding of the view `Orderbook::get_balance` (lib.rs:846-852): 0 for an
absent user or asset key. -/
def get_balance (st : Orderbook) (user asset : String) : Nat :=
  ((alookup st.balances user).map (fun b => (alookup b asset).getD 0)).getD 0

/-- Embedding of `Orderbook::make_intent` (lib.rs:268-295).  Returns the new
intent id; `none` models the `expect("User not found")` and the
"Insufficient balance" assertion. -/
def make_intent (st : Orderbook) (maker src_asset : String) (src_amount : Nat)
    (dst_asset : String) (dst_amount : Nat) : Option (Orderbook × Nat) :=
  match alookup st.balances maker with
  | none => none
  | some user_balances =>
    if src_amount ≤ (alookup user_balances src_asset).getD 0 then
      some ({ st with
                balances := ainsert st.balances maker
                  (ainsert user_balances src_asset
                    ((alookup user_balances src_asset).getD 0 - src_amount)),
                intents := ainsert st.intents st.next_id
                  ⟨st.next_id, maker, src_asset, src_amount, 0, dst_asset, dst_amount,
                   IntentStatus.Open⟩,
                next_id := st.next_id + 1 }, st.next_id)
    else none

/-- The fill-update applied to an intent by both `take_intent`
(lib.rs:311-314) and each leg of `batch_match_intents` (lib.rs:373-376):
`filled_amount += fill` and status becomes `Filled` exactly when the new
`filled_amount` equals `src_amount`.  The addition cannot overflow `u128`
because it is bounded by `src_amount`, so it is a plain `+` here. -/
def legUpdated (intent : Intent) (fill : Nat) : Intent :=
  { intent with
      filled_amount := intent.filled_amount + fill,
      status := if intent.filled_amount + fill = intent.src_amount then IntentStatus.Filled
                else intent.status }

/-- Embedding of `Orderbook::take_intent` (lib.rs:301-329). -/
def take_intent (st : Orderbook) (taker : String) (intent_id : Nat) (amount : Nat) :
    Option (Orderbook × Nat) :=
  match alookup st.intents intent_id with
  | none => none
  | some intent =>
    if intent.status = IntentStatus.Filled then none
    else
      match checkedSubU128 intent.src_amount intent.filled_amount with
      | none => none
      | some remaining =>
        if amount ≤ remaining then
          some ({ st with
                    intents := ainsert st.intents intent_id (legUpdated intent amount),
                    sub_intents := ainsert st.sub_intents st.next_id
                      ⟨st.next_id, intent_id, taker, amount, IntentStatus.Taken⟩,
                    next_id := st.next_id + 1 }, st.next_id)
        else none

/-- Embedding of one iteration of the `for m in &matches` loop of
`Orderbook::batch_match_intents` (lib.rs:347-409): per-leg validation, the
signed net-supply accumulation (with the wrapping `as i128` casts of the
source), the intent / sub-intent / expectation updates and the maker credit. -/
def processLeg (st : Orderbook) (solver : String) (net : List (String × Int))
    (m : MatchParams) : Option (Orderbook × List (String × Int)) :=
  match alookup st.intents m.intent_id with
  | none => none
  | some intent =>
    if intent.status = IntentStatus.Open then
      match checkedSubU128 intent.src_amount intent.filled_amount with
      | none => none
      | some remaining_src =>
        if m.fill_amount ≤ remaining_src then
          match checkedMulU128 m.get_amount intent.src_amount,
                checkedMulU128 m.fill_amount intent.dst_amount with
          | some lhs, some rhs =>
            if rhs ≤ lhs then
              match checkedAddI128 ((alookup net intent.src_asset).getD 0)
                  (wrapI128 m.fill_amount) with
              | none => none
              | some s1 =>
                match checkedSubI128
                    ((alookup (ainsert net intent.src_asset s1) intent.dst_asset).getD 0)
                    (wrapI128 m.get_amount) with
                | none => none
                | some d1 =>
                  match internal_transfer
                      { st with
                          intents := ainsert st.intents m.intent_id
                            (legUpdated intent m.fill_amount),
                          sub_intents := ainsert st.sub_intents st.next_id
                            ⟨st.next_id, m.intent_id, solver, m.fill_amount,
                             IntentStatus.Verifying⟩,
                          transition_expectations := ainsert st.transition_expectations
                            st.next_id
                            ⟨st.next_id, m.transition_chain_type, intent.src_asset,
                             m.fill_amount, "transition:sub:" ++ toString st.next_id⟩,
                          next_id := st.next_id + 1 }
                      intent.maker intent.dst_asset m.get_amount with
                  | none => none
                  | some st3 =>
                    some (st3, ainsert (ainsert net intent.src_asset s1) intent.dst_asset d1)
            else none
          | _, _ => none
        else none
    else none

/-- Sequential processing of the legs of a batch, threading the contract
state and the signed net-supply map in declaration order. -/
def processLegs (solver : String) :
    Orderbook → List (String × Int) → List MatchParams →
    Option (Orderbook × List (String × Int))
  | st, net, [] => some (st, net)
  | st, net, m :: rest =>
    match processLeg st solver net m with
    | none => none
    | some p => processLegs solver p.1 p.2 rest

/-- The global post-check of `batch_match_intents` (lib.rs:412-419): every
accumulated net must be non-negative. -/
def conservation_ok (net : List (String × Int)) : Bool :=
  net.all (fun p => decide (0 ≤ p.2))

/-- Embedding of `Orderbook::batch_match_intents` (lib.rs:339-452): batch-size
bounds, per-leg loop, then the global conservation check.  `none` models the
panic of any assertion, which rolls back every mutation of the call. -/
def batch_match_intents (st : Orderbook) (solver : String) (ms : List MatchParams) :
    Option Orderbook :=
  if 2 ≤ ms.length ∧ ms.length ≤ 6 then
    match processLegs solver st [] ms with
    | none => none
    | some p => if conservation_ok p.2 then some p.1 else none
  else none

/-- Embedding of `Orderbook::withdraw` (lib.rs:636-684): synchronous debit,
allocation of a withdrawal id from `next_id` and the pending-withdrawal
record.  The signer promise is dispatched outside the state machine; its
result arrives through `on_signed`. -/
def withdraw (st : Orderbook) (user asset : String) (amount : Nat) :
    Option (Orderbook × Nat) :=
  match alookup st.balances user with
  | none => none
  | some user_balances =>
    let current := (alookup user_balances asset).getD 0
    if amount ≤ current then
      let wd_id := st.next_id
      some ({ st with
                balances := ainsert st.balances user
                  (ainsert user_balances asset (current - amount)),
                pending_withdrawals :=
                  ainsert st.pending_withdrawals wd_id ⟨user, asset, amount⟩,
                next_id := wd_id + 1 }, wd_id)
    else none

/-- Embedding of the callback `Orderbook::on_signed` (lib.rs:754-812).  The
`chain_type` and `payload` arguments of the source only feed the emitted
`SignatureEvent` log line, so they are omitted; `ok` is whether the signer
promise succeeded.  `none` models the refund credit overflowing. -/
def on_signed (st : Orderbook) (id : Nat) (ok : Bool) : Option Orderbook :=
  if ok then
    let st1 :=
      match alookup st.sub_intents id with
      | some sub =>
        if sub.status = IntentStatus.Verifying then
          { st with sub_intents :=
              ainsert st.sub_intents id { sub with status := IntentStatus.Settled } }
        else st
      | none => st
    some (if (alookup st1.pending_withdrawals id).isSome then
            { st1 with pending_withdrawals := aremove st1.pending_withdrawals id }
          else st1)
  else
    let st1 :=
      match alookup st.sub_intents id with
      | some sub =>
        { st with
            sub_intents :=
              ainsert st.sub_intents id { sub with status := IntentStatus.Taken },
            transition_expectations := aremove st.transition_expectations id }
      | none => st
    match alookup st1.pending_withdrawals id with
    | some wd =>
      match internal_transfer st1 wd.user wd.asset wd.amount with
      | none => none
      | some st2 =>
        some { st2 with pending_withdrawals := aremove st2.pending_withdrawals id }
    | none => some st1

/-- Parsed inclusion proof, `PaymentProof` in the light client source. -/
structure PaymentProof : Type where
  chain_type : ChainType
  tx_hash : String
  recipient : String
  asset : String
  amount : Nat
  memo : String
  block_height : Nat
  inclusion_proof : List String
  deriving DecidableEq, Repr

/-- Light client state (`LightClient` in light-client/src/lib.rs): the
per-chain finalized heights keyed by the `chain_key` strings.  The `owner_id`
field only gates `set_finalized_height` and is omitted. -/
structure LightClient : Type where
  finalized_heights : List (String × Nat)
  deriving DecidableEq, Repr

/-- Embedding of `chain_key` (light-client/src/lib.rs:180-186). -/
def chain_key : ChainType → String
  | ChainType.BTC => "BTC"
  | ChainType.ETH => "ETH"
  | ChainType.SOL => "SOL"

/-- Embedding of `LightClient::get_finalized_height`
(light-client/src/lib.rs:62-66): 0 for an absent chain. -/
def get_finalized_height (lc : LightClient) (chain_type : ChainType) : Nat :=
  (alookup lc.finalized_heights (chain_key chain_type)).getD 0

/-- ASCII lower-casing of a character, as used by Rust's
`eq_ignore_ascii_case`. -/
def ascii_lower (c : Char) : Char :=
  if 'A' ≤ c ∧ c ≤ 'Z' then Char.ofNat (c.toNat + 32) else c

/-- Embedding of Rust's `str::eq_ignore_ascii_case`: equality of the two
strings after per-character ASCII case folding. -/
def eq_ignore_ascii_case (a b : String) : Bool :=
  if a.data.map ascii_lower = b.data.map ascii_lower then true else false

/-- Embedding of `LightClient::verify_payment_proof`
(light-client/src/lib.rs:68-117).  The `serde_json::from_slice` parse of the
`proof_data` bytes is abstracted into the `parsed : Option PaymentProof`
argument: `none` is an unparseable byte string. -/
def verify_payment_proof (lc : LightClient) (chain_type : ChainType)
    (parsed : Option PaymentProof) (expected_recipient expected_asset : String)
    (expected_amount : Nat) (expected_memo : String) : Bool :=
  match parsed with
  | none => false
  | some pf =>
    if pf.chain_type ≠ chain_type then false
    else if pf.recipient ≠ expected_recipient then false
    else if ¬ (eq_ignore_ascii_case pf.asset expected_asset = true) then false
    else if pf.amount ≠ expected_amount then false
    else if pf.memo ≠ expected_memo then false
    else if pf.inclusion_proof.isEmpty then false
    else
      let finalized_height := get_finalized_height lc pf.chain_type
      if finalized_height = 0 then false
      else if finalized_height < pf.block_height then false
      else true

/-- Spec-side definition (for comparison with the source's check, spec §8):
the aggregate `fill_amount` of the batch legs whose intent supplies `asset`,
with intents read from the pre-batch state. -/
def specSrcFillSum (st : Orderbook) (ms : List MatchParams) (asset : String) : Nat :=
  ms.foldl
    (fun acc m =>
      match alookup st.intents m.intent_id with
      | some i => if i.src_asset = asset then acc + m.fill_amount else acc
      | none => acc)
    0

/-- Spec-side definition (for comparison with the source's check, spec §8):
the aggregate `get_amount` of the batch legs whose intent demands `asset`,
with intents read from the pre-batch state. -/
def specDstGetSum (st : Orderbook) (ms : List MatchParams) (asset : String) : Nat :=
  ms.foldl
    (fun acc m =>
      match alookup st.intents m.intent_id with
      | some i => if i.dst_asset = asset then acc + m.get_amount else acc
      | none => acc)
    0

/-- Pre-state of the C1 failing input: intent 0 sells 1 "X" for 1 "Y",
intent 1 sells 1 "Z" for 1 "Z", both open and unfilled. -/
def c1St : Orderbook :=
  ⟨[],
   [(0, ⟨0, "alice", "X", 1, 0, "Y", 1, IntentStatus.Open⟩),
    (1, ⟨1, "bob", "Z", 1, 0, "Z", 1, IntentStatus.Open⟩)],
   [], [], [], 2⟩

/-- The C1 failing batch: leg 1 fills intent 0 with `fill_amount = 1` and
`get_amount = 2^127 + 1`; leg 2 fills intent 1 one-for-one. -/
def c1Batch : List MatchParams :=
  [⟨0, 1, 2 ^ 127 + 1, ChainType.ETH⟩, ⟨1, 1, 1, ChainType.ETH⟩]

/-- Light-client state of the C7 counterexample: BTC finalized height 10. -/
def c7LC : LightClient := ⟨[("BTC", 10)]⟩

/-- Proof object of the C7 counterexample: every field matches the expected
values, the inclusion proof is non-empty, but `block_height = 0`. -/
def c7Proof : PaymentProof := ⟨ChainType.BTC, "tx", "rcpt", "btc", 5, "memo", 0, ["p"]⟩

/-- Empty pre-state of the C9 counterexample. -/
def c9St : Orderbook := ⟨[], [], [], [], [], 0⟩

/-- Post-state of the C9 counterexample: 5 "ETH" credited to "alice". -/
def c9St' : Orderbook := ⟨[("alice", [("ETH", 5)])], [], [], [], [], 0⟩

/-- Pre-state of the C10 witness: "bob" holds 7 "BTC", next id is 4. -/
def c10St : Orderbook := ⟨[("bob", [("BTC", 7)])], [], [], [], [], 4⟩

/-- Pre-state of the C4 counterexample: sub-intent 5 is in `Settled` with a
recorded transition expectation; there is no pending withdrawal 5. -/
def c4St : Orderbook :=
  ⟨[], [],
   [(5, ⟨5, 0, "solver", 10, IntentStatus.Settled⟩)],
   [(5, ⟨5, ChainType.ETH, "SOL", 10, "transition:sub:5"⟩)],
   [], 6⟩

/-- Pre-state of the C4 witness: sub-intent 1 in `Verifying`. -/
def c4WSt : Orderbook :=
  ⟨[], [], [(1, ⟨1, 0, "s", 2, IntentStatus.Verifying⟩)], [], [], 2⟩

/-- Pre-state of the C5 witness: "alice" holds 100 "ETH". -/
def c5St : Orderbook := ⟨[("alice", [("ETH", 100)])], [], [], [], [], 1⟩

/-- Post-withdraw state of the C5 witness: 50 "ETH" debited, pending
withdrawal 1 recorded. -/
def c5St1 : Orderbook :=
  ⟨[("alice", [("ETH", 50)])], [], [], [], [(1, ⟨"alice", "ETH", 50⟩)], 2⟩

/-- Pre-state of the C6 witness: sub-intent 2 in `Verifying` with its
expectation, a maker balance already credited, no pending withdrawals. -/
def c6St : Orderbook :=
  ⟨[("alice", [("ETH", 5)])], [],
   [(2, ⟨2, 0, "s", 3, IntentStatus.Verifying⟩)],
   [(2, ⟨2, ChainType.SOL, "SOL", 3, "transition:sub:2"⟩)],
   [], 3⟩

/-- Membership of an `Int` in the value range of Rust's `i128`. -/
def i128InRange (x : Int) : Prop := i128Min ≤ x ∧ x ≤ i128Max

/-- The per-leg checks of `batch_match_intents` (lib.rs:352-403) for a given
intent, phrased as a predicate: the intent is `Open`, the fill fits the
remaining amount, the price products fit `u128` and satisfy
`get·src ≥ fill·dst`, the two signed net accumulations stay inside `i128`,
and the maker credit does not overflow. -/
def leg_checks_for (st : Orderbook) (net : List (String × Int)) (m : MatchParams)
    (intent : Intent) : Prop :=
  intent.status = IntentStatus.Open ∧
  intent.filled_amount ≤ intent.src_amount ∧
  m.fill_amount ≤ intent.src_amount - intent.filled_amount ∧
  m.get_amount * intent.src_amount < TWO128 ∧
  m.fill_amount * intent.dst_amount < TWO128 ∧
  m.fill_amount * intent.dst_amount ≤ m.get_amount * intent.src_amount ∧
  i128InRange ((alookup net intent.src_asset).getD 0 + wrapI128 m.fill_amount) ∧
  i128InRange ((alookup (ainsert net intent.src_asset
      ((alookup net intent.src_asset).getD 0 + wrapI128 m.fill_amount))
      intent.dst_asset).getD 0 - wrapI128 m.get_amount) ∧
  (alookup ((alookup st.balances intent.maker).getD []) intent.dst_asset).getD 0 +
      m.get_amount < TWO128

/-- All checks of one leg of a batch: the referenced intent exists and passes
`leg_checks_for`. -/
def leg_checks (st : Orderbook) (net : List (String × Int)) (m : MatchParams) : Prop :=
  ∃ intent, alookup st.intents m.intent_id = some intent ∧ leg_checks_for st net m intent

/-- The statement "every per-leg check of the batch passes": the head leg's
checks hold in the current state, and, in the state and net map produced by
that leg, the checks of the remaining legs hold in sequence. -/
def legs_ok (solver : String) : Orderbook → List (String × Int) → List MatchParams → Prop
  | _, _, [] => True
  | st, net, m :: rest =>
    leg_checks st net m ∧
    ∀ p, processLeg st solver net m = some p → legs_ok solver p.1 p.2 rest

/-- Pre-state shared by the C2/C3 witnesses: the mirror two-way swap of the
spec's scenario 1 — alice sells 100 SOL for 100 ETH, bob sells 100 ETH for
100 SOL. -/
def mirrorSt : Orderbook :=
  ⟨[("alice", [("SOL", 0)]), ("bob", [("ETH", 0)])],
   [(0, ⟨0, "alice", "SOL", 100, 0, "ETH", 100, IntentStatus.Open⟩),
    (1, ⟨1, "bob", "ETH", 100, 0, "SOL", 100, IntentStatus.Open⟩)],
   [], [], [], 2⟩

/-- Batch matching the two mirror intents exactly. -/
def mirrorBatch : List MatchParams :=
  [⟨0, 100, 100, ChainType.ETH⟩, ⟨1, 100, 100, ChainType.SOL⟩]

/-- The intent-table invariant of the claim: the fill never exceeds the
posted amount, and the status is `Filled` exactly when the intent is fully
filled. -/
def IntentInv (i : Intent) : Prop :=
  i.filled_amount ≤ i.src_amount ∧
  (i.status = IntentStatus.Filled ↔ i.filled_amount = i.src_amount)

/-- Every intent stored in the table satisfies `IntentInv`. -/
def IntentInvAll (st : Orderbook) : Prop :=
  ∀ j i, alookup st.intents j = some i → IntentInv i

/-- Pre-state of the C8 counterexample and witness: "alice" holds 5 "ETH",
the intent table is empty (so the table invariant holds vacuously). -/
def c8St : Orderbook := ⟨[("alice", [("ETH", 5)])], [], [], [], [], 0⟩

/-- Post-state of the C8 counterexample: `make_intent` with `src_amount = 0`
stored an intent with `filled_amount = src_amount = 0` but status `Open`. -/
def c8Out : Orderbook :=
  ⟨[("alice", [("ETH", 5), ("SOL", 0)])],
   [(0, ⟨0, "alice", "SOL", 0, 0, "ETH", 1, IntentStatus.Open⟩)],
   [], [], [], 1⟩

theorem alookup_ainsert_self {K V : Type} [DecidableEq K] (l : List (K × V)) (k : K) (v : V) :
    alookup (ainsert l k v) k = some v := by
  induction l with
  | nil => simp [ainsert, alookup]
  | cons h t ih =>
    obtain ⟨k', v'⟩ := h
    by_cases hk : k' = k
    · simp [ainsert, hk, alookup]
    · simp [ainsert, hk, alookup, ih]

theorem alookup_ainsert_ne {K V : Type} [DecidableEq K] (l : List (K × V)) {k k' : K} (v : V)
    (h : k' ≠ k) : alookup (ainsert l k v) k' = alookup l k' := by
  induction l with
  | nil => simp [ainsert, alookup, Ne.symm h]
  | cons hd t ih =>
    obtain ⟨k₀, v₀⟩ := hd
    by_cases hk : k₀ = k
    · subst hk
      simp [ainsert, alookup, Ne.symm h]
    · by_cases hk' : k₀ = k'
      · subst hk'
        simp [ainsert, hk, alookup]
      · simp [ainsert, hk, alookup, hk', ih]

theorem alookup_aremove_self {K V : Type} [DecidableEq K] (l : List (K × V)) (k : K) :
    alookup (aremove l k) k = none := by
  induction l with
  | nil => simp [aremove, alookup]
  | cons hd t ih =>
    obtain ⟨k₀, v₀⟩ := hd
    by_cases hk : k₀ = k
    · simp [aremove, hk, ih]
    · simp [aremove, hk, alookup, ih]

theorem alookup_aremove_ne {K V : Type} [DecidableEq K] (l : List (K × V)) {k k' : K}
    (h : k' ≠ k) : alookup (aremove l k) k' = alookup l k' := by
  induction l with
  | nil => simp [aremove]
  | cons hd t ih =>
    obtain ⟨k₀, v₀⟩ := hd
    by_cases hk : k₀ = k
    · subst hk
      simp [aremove, alookup, Ne.symm h, ih]
    · simp [aremove, hk, alookup, ih]

/-- Claim C1 (code bug): `batch_match_intents` accepts the batch `c1Batch`
although asset "Y" is demanded in aggregate amount `2^127 + 1` and supplied in
aggregate amount 0.  The conservation check of lib.rs:412-419 computes the net
through the wrapping `as i128` casts of lib.rs:366/370, so the demand
`2^127 + 1` enters the net as `-2^127 + 1` and the computed net of "Y" is
`2^127 - 1 ≥ 0`, defeating the check that the source's own comment calls
"Verify solvency (conservation of mass)". -/
theorem c1_conservation_code_bug :
    (batch_match_intents c1St "solver" c1Batch).isSome = true ∧
    specSrcFillSum c1St c1Batch "Y" < specDstGetSum c1St c1Batch "Y" := by
  constructor
  · decide
  · decide

/-- Claim C7 counterexample: `verify_payment_proof` returns `true` on a proof
whose `block_height` is 0, so "for every input on which it returns true,
proof.block_height > 0" is false.  The source only requires the stored
`finalized_height` to be non-zero and `block_height ≤ finalized_height`; it
never checks `0 < block_height`. -/
theorem c7_counterexample :
    verify_payment_proof c7LC ChainType.BTC (some c7Proof) "rcpt" "BTC" 5 "memo" = true ∧
    ¬ 0 < c7Proof.block_height := by
  decide

/-- Claim C7 as amended: `verify_payment_proof` returns `true` iff the proof
bytes parse, the proof's `chain_type` equals the expected one, the recipient
matches exactly, the asset matches ASCII-case-insensitively, the amount and
memo match exactly, the inclusion-proof list is non-empty, the stored
`finalized_height` of the chain is positive, and
`block_height ≤ finalized_height`.  (Unlike the claim, `0 < block_height` is
not required.) -/
theorem c7_verify_payment_proof_amended (lc : LightClient) (ct : ChainType)
    (parsed : Option PaymentProof) (er ea : String) (eam : Nat) (em : String) :
    verify_payment_proof lc ct parsed er ea eam em = true ↔
    ∃ pf, parsed = some pf ∧ pf.chain_type = ct ∧ pf.recipient = er ∧
      eq_ignore_ascii_case pf.asset ea = true ∧ pf.amount = eam ∧ pf.memo = em ∧
      pf.inclusion_proof ≠ [] ∧ 0 < get_finalized_height lc ct ∧
      pf.block_height ≤ get_finalized_height lc ct := by
  cases parsed with
  | none => simp [verify_payment_proof]
  | some pf =>
    constructor
    · intro h
      refine ⟨pf, rfl, ?_⟩
      simp only [verify_payment_proof] at h
      split_ifs at h with h1 h2 h3 h4 h5 h6 h7 h8
      push_neg at h1 h2 h4 h5
      rw [h1] at h7 h8 ⊢
      refine ⟨rfl, h2, ?_, h4, h5, ?_, ?_, ?_⟩
      · simpa using h3
      · simpa [List.isEmpty_iff] using h6
      · exact Nat.pos_of_ne_zero h7
      · exact Nat.le_of_not_lt h8
    · rintro ⟨pf', hpf, hct, hrec, hasset, ham, hmemo, hincl, hfin, hbh⟩
      obtain rfl : pf = pf' := by
        injection hpf
      subst hct
      subst hrec
      subst ham
      subst hmemo
      simp [verify_payment_proof, hasset, hincl, List.isEmpty_iff,
        Nat.pos_iff_ne_zero.mp hfin, Nat.not_lt.mpr hbh]

/-- Witness for the amended claim C7 at a concrete input: the iff instantiated
at the counterexample's light-client state and a valid proof of height 3. -/
theorem c7_verify_payment_proof_amended_witness :
    verify_payment_proof c7LC ChainType.BTC
      (some ⟨ChainType.BTC, "tx", "rcpt", "BTC", 5, "memo", 3, ["p"]⟩)
      "rcpt" "BTC" 5 "memo" = true ↔
    ∃ pf, some (⟨ChainType.BTC, "tx", "rcpt", "BTC", 5, "memo", 3, ["p"]⟩ : PaymentProof) = some pf ∧
      pf.chain_type = ChainType.BTC ∧ pf.recipient = "rcpt" ∧
      eq_ignore_ascii_case pf.asset "BTC" = true ∧ pf.amount = 5 ∧ pf.memo = "memo" ∧
      pf.inclusion_proof ≠ [] ∧ 0 < get_finalized_height c7LC ChainType.BTC ∧
      pf.block_height ≤ get_finalized_height c7LC ChainType.BTC :=
  c7_verify_payment_proof_amended c7LC ChainType.BTC _ "rcpt" "BTC" 5 "memo"

theorem checkedAddU128_eq_some {a b c : Nat} :
    checkedAddU128 a b = some c ↔ a + b < TWO128 ∧ c = a + b := by
  unfold checkedAddU128
  split <;> (simp_all; try omega)

theorem checkedSubU128_eq_some {a b c : Nat} :
    checkedSubU128 a b = some c ↔ b ≤ a ∧ c = a - b := by
  unfold checkedSubU128
  split <;> (simp_all; try omega)

theorem checkedMulU128_eq_some {a b c : Nat} :
    checkedMulU128 a b = some c ↔ a * b < TWO128 ∧ c = a * b := by
  unfold checkedMulU128
  split
  · simp_all [eq_comm]
  · simp_all

theorem checkedAddI128_eq_some {a b c : Int} :
    checkedAddI128 a b = some c ↔ (i128Min ≤ a + b ∧ a + b ≤ i128Max) ∧ c = a + b := by
  unfold checkedAddI128
  split <;> (simp_all; try omega)

theorem checkedSubI128_eq_some {a b c : Int} :
    checkedSubI128 a b = some c ↔ (i128Min ≤ a - b ∧ a - b ≤ i128Max) ∧ c = a - b := by
  unfold checkedSubI128
  split <;> (simp_all; try omega)

theorem internal_transfer_eq_some {st : Orderbook} {user asset : String} {amount : Nat}
    {st' : Orderbook} :
    internal_transfer st user asset amount = some st' ↔
    (alookup ((alookup st.balances user).getD []) asset).getD 0 + amount < TWO128 ∧
    st' = { st with balances := ainsert st.balances user (ainsert ((alookup st.balances user).getD []) asset ((alookup ((alookup st.balances user).getD []) asset).getD 0 + amount)) } := by
  simp only [internal_transfer, Option.map_eq_some']
  constructor
  · rintro ⟨v, hv, rfl⟩
    obtain ⟨hlt, rfl⟩ := checkedAddU128_eq_some.mp hv
    exact ⟨hlt, rfl⟩
  · rintro ⟨hlt, rfl⟩
    exact ⟨_, checkedAddU128_eq_some.mpr ⟨hlt, rfl⟩, rfl⟩

/-- Claim C9 counterexample: "ETH" and "eth" are equal under ASCII case
folding, yet a credit recorded under "ETH" reads back as 0 under "eth" —
`internal_transfer` and `get_balance` key the ledger by exact strings
(`UnorderedMap<String, u128>`), so the claimed ledger case-insensitivity is
false. -/
theorem c9_counterexample :
    eq_ignore_ascii_case "ETH" "eth" = true ∧
    internal_transfer c9St "alice" "ETH" 5 = some c9St' ∧
    get_balance c9St' "alice" "ETH" = 5 ∧
    get_balance c9St' "alice" "eth" = 0 := by
  decide

/-- Claim C9 as amended: the ledger compares asset symbols by exact string
equality, not case-insensitively: a credit of `amount` under key `asset`
raises `get_balance` for exactly the pair `(user, asset)` by `amount` and
leaves every other `(u, a)` read unchanged — in particular a differently-cased
spelling of the same symbol is a distinct key. -/
theorem c9_ledger_exact_case_amended (st : Orderbook) (user asset : String) (amount : Nat)
    (st' : Orderbook) (h : internal_transfer st user asset amount = some st') :
    get_balance st' user asset = get_balance st user asset + amount ∧
    ∀ u a, u ≠ user ∨ a ≠ asset → get_balance st' u a = get_balance st u a := by
  obtain ⟨hlt, rfl⟩ := internal_transfer_eq_some.mp h
  constructor
  · simp only [get_balance]
    rw [alookup_ainsert_self]
    simp only [Option.map_some', Option.getD_some]
    rw [alookup_ainsert_self]
    cases hb : alookup st.balances user with
    | none => simp [hb, alookup]
    | some b => simp [hb]
  · intro u a hua
    by_cases hu : u = user
    · subst hu
      rcases hua with hua | hua
      · exact absurd rfl hua
      · simp only [get_balance]
        rw [alookup_ainsert_self]
        simp only [Option.map_some', Option.getD_some]
        rw [alookup_ainsert_ne _ _ hua]
        cases hb : alookup st.balances u with
        | none => simp [hb, alookup]
        | some b => simp [hb]
    · simp only [get_balance]
      rw [alookup_ainsert_ne _ _ hu]

/-- Witness for the amended claim C9: the credit of the counterexample read
back under its exact key. -/
theorem c9_ledger_exact_case_amended_witness :
    get_balance c9St' "alice" "ETH" = get_balance c9St "alice" "ETH" + 5 :=
  (c9_ledger_exact_case_amended c9St "alice" "ETH" 5 c9St' (by decide)).1

/-- Claim C10: `make_intent` performs no positivity validation: with
`src_amount = 0` (and any `dst_amount`, 0 included) it succeeds for any maker
holding a balance record, returns the fresh id `next_id`, leaves every ledger
read unchanged, and stores an intent with status `Open` and
`filled_amount = 0`. -/
theorem c10_make_intent_zero (st : Orderbook) (maker src_asset dst_asset : String)
    (dst_amount : Nat) (ub : List (String × Nat))
    (hub : alookup st.balances maker = some ub) :
    ∃ st', make_intent st maker src_asset 0 dst_asset dst_amount = some (st', st.next_id) ∧
      (∀ u a, get_balance st' u a = get_balance st u a) ∧
      alookup st'.intents st.next_id =
        some ⟨st.next_id, maker, src_asset, 0, 0, dst_asset, dst_amount, IntentStatus.Open⟩ ∧
      st'.next_id = st.next_id + 1 := by
  refine ⟨{ st with
      balances := ainsert st.balances maker
        (ainsert ub src_asset ((alookup ub src_asset).getD 0 - 0)),
      intents := ainsert st.intents st.next_id
        ⟨st.next_id, maker, src_asset, 0, 0, dst_asset, dst_amount, IntentStatus.Open⟩,
      next_id := st.next_id + 1 }, ?_, ?_, ?_, ?_⟩
  · simp only [make_intent, hub]
    rw [if_pos (Nat.zero_le _)]
  · intro u a
    by_cases hu : u = maker
    · subst hu
      simp only [get_balance]
      rw [alookup_ainsert_self, hub]
      simp only [Option.map_some', Option.getD_some, Nat.sub_zero]
      by_cases ha : a = src_asset
      · subst ha
        rw [alookup_ainsert_self]
        simp
      · rw [alookup_ainsert_ne _ _ ha]
    · simp only [get_balance]
      rw [alookup_ainsert_ne _ _ hu]
  · exact alookup_ainsert_self _ _ _
  · rfl

/-- Witness for claim C10: the zero-amount intent creation on the concrete
state `c10St`. -/
theorem c10_make_intent_zero_witness :
    ∃ st', make_intent c10St "bob" "SOL" 0 "BTC" 9 = some (st', c10St.next_id) ∧
      (∀ u a, get_balance st' u a = get_balance c10St u a) ∧
      alookup st'.intents c10St.next_id =
        some ⟨c10St.next_id, "bob", "SOL", 0, 0, "BTC", 9, IntentStatus.Open⟩ ∧
      st'.next_id = c10St.next_id + 1 :=
  c10_make_intent_zero c10St "bob" "SOL" "BTC" 9 [("BTC", 7)] (by decide)

/-- Claim C4 counterexample: a signer-failure `on_signed` for a sub-intent in
state `Settled` is NOT left unchanged: the failure branch of lib.rs:793-799
carries no `Verifying` guard, so the sub-intent is forced to `Taken` and its
transition expectation is removed. -/
theorem c4_counterexample :
    (alookup c4St.sub_intents 5).map SubIntent.status = some IntentStatus.Settled ∧
    on_signed c4St 5 false =
      some ⟨[], [], [(5, ⟨5, 0, "solver", 10, IntentStatus.Taken⟩)], [], [], 6⟩ := by
  decide

/-- Claim C4 as amended: on signer success `on_signed` transitions a
sub-intent Verifying → Settled and leaves a sub-intent in any other state
unchanged; on signer failure it sets any existing sub-intent with that id to
`Taken` and removes its transition expectation REGARDLESS of its current
state (the guard exists only on the success branch). -/
theorem c4_on_signed_amended (st : Orderbook) (id : Nat) :
    (∀ sub, alookup st.sub_intents id = some sub → sub.status = IntentStatus.Verifying →
       ∃ st', on_signed st id true = some st' ∧
         alookup st'.sub_intents id = some { sub with status := IntentStatus.Settled }) ∧
    (∀ sub, alookup st.sub_intents id = some sub → sub.status ≠ IntentStatus.Verifying →
       ∃ st', on_signed st id true = some st' ∧ st'.sub_intents = st.sub_intents) ∧
    (∀ sub, alookup st.sub_intents id = some sub →
       alookup st.pending_withdrawals id = none →
       ∃ st', on_signed st id false = some st' ∧
         alookup st'.sub_intents id = some { sub with status := IntentStatus.Taken } ∧
         alookup st'.transition_expectations id = none) := by
  refine ⟨?_, ?_, ?_⟩
  · intro sub hsub hver
    simp only [on_signed, hsub, hver, if_true]
    refine ⟨_, rfl, ?_⟩
    split <;> exact alookup_ainsert_self _ _ _
  · intro sub hsub hver
    simp only [on_signed, hsub, if_neg hver]
    refine ⟨_, rfl, ?_⟩
    split <;> rfl
  · intro sub hsub hpw
    simp only [on_signed, hsub, hpw]
    exact ⟨_, rfl, alookup_ainsert_self _ _ _, alookup_aremove_self _ _⟩

/-- Witness for the amended claim C4: the Verifying → Settled transition on a
concrete state. -/
theorem c4_on_signed_amended_witness :
    ∃ st', on_signed c4WSt 1 true = some st' ∧
      alookup st'.sub_intents 1 = some ⟨1, 0, "s", 2, IntentStatus.Settled⟩ :=
  (c4_on_signed_amended c4WSt 1).1 ⟨1, 0, "s", 2, IntentStatus.Verifying⟩ (by decide) (by decide)

theorem withdraw_eq_some {st : Orderbook} {user asset : String} {amount : Nat}
    {st₁ : Orderbook} {wd : Nat} :
    withdraw st user asset amount = some (st₁, wd) ↔
    ∃ ub, alookup st.balances user = some ub ∧
      amount ≤ (alookup ub asset).getD 0 ∧
      wd = st.next_id ∧
      st₁ = { st with balances := ainsert st.balances user (ainsert ub asset ((alookup ub asset).getD 0 - amount)), pending_withdrawals := ainsert st.pending_withdrawals st.next_id ⟨user, asset, amount⟩, next_id := st.next_id + 1 } := by
  unfold withdraw
  cases hub : alookup st.balances user with
  | none => simp
  | some ub =>
    simp only [Option.some.injEq]
    split
    case isTrue hle =>
      constructor
      · rintro h
        obtain ⟨h1, h2⟩ := Prod.mk.injEq .. ▸ (Option.some.inj h)
        exact ⟨ub, rfl, hle, h2.symm, h1.symm⟩
      · rintro ⟨ub', hub', hle', rfl, rfl⟩
        obtain rfl : ub = ub' := hub'
        rfl
    case isFalse hle =>
      constructor
      · rintro h
        exact absurd h (by simp)
      · rintro ⟨ub', hub', hle', rfl, rfl⟩
        obtain rfl : ub = ub' := hub'
        exact absurd hle' hle

theorem on_signed_fail_refund {st : Orderbook} {id : Nat} {wdE : PendingWithdrawal}
    (hpw : alookup st.pending_withdrawals id = some wdE)
    (hfit : (alookup ((alookup st.balances wdE.user).getD []) wdE.asset).getD 0 + wdE.amount < TWO128) :
    ∃ st₂, on_signed st id false = some st₂ ∧
      st₂.balances = ainsert st.balances wdE.user (ainsert ((alookup st.balances wdE.user).getD []) wdE.asset ((alookup ((alookup st.balances wdE.user).getD []) wdE.asset).getD 0 + wdE.amount)) ∧
      alookup st₂.pending_withdrawals id = none := by
  cases hsub : alookup st.sub_intents id with
  | some sub =>
    simp only [on_signed, hsub, hpw, internal_transfer, checkedAddU128, if_pos hfit,
      Option.map_some']
    exact ⟨_, rfl, rfl, alookup_aremove_self _ _⟩
  | none =>
    simp only [on_signed, hsub, hpw, internal_transfer, checkedAddU128, if_pos hfit,
      Option.map_some']
    exact ⟨_, rfl, rfl, alookup_aremove_self _ _⟩

theorem on_signed_ok_pending {st : Orderbook} {id : Nat} {wdE : PendingWithdrawal}
    (hpw : alookup st.pending_withdrawals id = some wdE) :
    ∃ st₂, on_signed st id true = some st₂ ∧
      st₂.balances = st.balances ∧
      alookup st₂.pending_withdrawals id = none := by
  cases hsub : alookup st.sub_intents id with
  | some sub =>
    by_cases hver : sub.status = IntentStatus.Verifying
    · simp only [on_signed, hsub, if_pos hver, hpw, Option.isSome_some, if_true]
      exact ⟨_, rfl, rfl, alookup_aremove_self _ _⟩
    · simp only [on_signed, hsub, if_neg hver, hpw, Option.isSome_some, if_true]
      exact ⟨_, rfl, rfl, alookup_aremove_self _ _⟩
  | none =>
    simp only [on_signed, hsub, hpw, Option.isSome_some, if_true]
    exact ⟨_, rfl, rfl, alookup_aremove_self _ _⟩

/-- Claim C5: after a successful `withdraw` of `amount` of `asset` by `user`,
a signer-failure `on_signed` on the allocated withdrawal id restores the
user's `asset` balance to its pre-withdrawal value and removes the
`PendingWithdrawal`; a signer-success `on_signed` removes the entry and
changes no ledger balance.  The bound `hfit` states the pre-state balance is a
`u128` value, which every state reachable by the contract satisfies. -/
theorem c5_withdraw_refund (st : Orderbook) (user asset : String) (amount : Nat)
    (st₁ : Orderbook) (wd : Nat)
    (hw : withdraw st user asset amount = some (st₁, wd))
    (hfit : get_balance st user asset < TWO128) :
    (∃ st₂, on_signed st₁ wd false = some st₂ ∧
       get_balance st₂ user asset = get_balance st user asset ∧
       alookup st₂.pending_withdrawals wd = none) ∧
    (∃ st₂, on_signed st₁ wd true = some st₂ ∧
       st₂.balances = st₁.balances ∧
       alookup st₂.pending_withdrawals wd = none) := by
  obtain ⟨ub, hub, hle, rfl, rfl⟩ := withdraw_eq_some.mp hw
  have hcur : get_balance st user asset = (alookup ub asset).getD 0 := by
    simp [get_balance, hub]
  have hpw : alookup (ainsert st.pending_withdrawals st.next_id
      (⟨user, asset, amount⟩ : PendingWithdrawal)) st.next_id =
      some (⟨user, asset, amount⟩ : PendingWithdrawal) := alookup_ainsert_self _ _ _
  have e1 : alookup (ainsert st.balances user
      (ainsert ub asset ((alookup ub asset).getD 0 - amount))) user =
      some (ainsert ub asset ((alookup ub asset).getD 0 - amount)) := alookup_ainsert_self _ _ _
  have e2 : alookup (ainsert ub asset ((alookup ub asset).getD 0 - amount)) asset =
      some ((alookup ub asset).getD 0 - amount) := alookup_ainsert_self _ _ _
  have hsumeq : (alookup ub asset).getD 0 - amount + amount = (alookup ub asset).getD 0 :=
    Nat.sub_add_cancel hle
  have hfit' : (alookup ((alookup (ainsert st.balances user (ainsert ub asset ((alookup ub asset).getD 0 - amount))) user).getD []) asset).getD 0 + amount < TWO128 := by
    rw [e1]
    simp only [Option.getD_some]
    rw [e2]
    simp only [Option.getD_some, hsumeq]
    exact hcur ▸ hfit
  constructor
  · obtain ⟨st₂, hrun, hbal, hpw'⟩ :=
      @on_signed_fail_refund
        { st with
            balances := ainsert st.balances user (ainsert ub asset ((alookup ub asset).getD 0 - amount)),
            pending_withdrawals := ainsert st.pending_withdrawals st.next_id ⟨user, asset, amount⟩,
            next_id := st.next_id + 1 }
        st.next_id ⟨user, asset, amount⟩ hpw hfit'
    refine ⟨st₂, hrun, ?_, hpw'⟩
    rw [get_balance, hbal]
    rw [alookup_ainsert_self]
    simp only [Option.map_some', Option.getD_some]
    rw [e1]
    simp only [Option.getD_some]
    rw [alookup_ainsert_self]
    simp only [Option.getD_some, e2, hsumeq, hcur]
  · exact @on_signed_ok_pending
      { st with
          balances := ainsert st.balances user (ainsert ub asset ((alookup ub asset).getD 0 - amount)),
          pending_withdrawals := ainsert st.pending_withdrawals st.next_id ⟨user, asset, amount⟩,
          next_id := st.next_id + 1 }
      st.next_id ⟨user, asset, amount⟩ hpw

/-- Witness for claim C5 at a concrete input: withdrawal of 50 of 100 "ETH",
then the failure and success callbacks. -/
theorem c5_withdraw_refund_witness :
    (∃ st₂, on_signed c5St1 1 false = some st₂ ∧
       get_balance st₂ "alice" "ETH" = get_balance c5St "alice" "ETH" ∧
       alookup st₂.pending_withdrawals 1 = none) ∧
    (∃ st₂, on_signed c5St1 1 true = some st₂ ∧
       st₂.balances = c5St1.balances ∧
       alookup st₂.pending_withdrawals 1 = none) :=
  c5_withdraw_refund c5St "alice" "ETH" 50 c5St1 1 (by decide) (by decide)

/-- Claim C6: a signer-failure `on_signed` for an id with no pending
withdrawal (in particular a sub-intent id allocated by `batch_match_intents`,
whose ids are drawn from `next_id` and never collide with recorded
withdrawals) leaves the ledger untouched — the maker-side credit performed
during the match is NOT reversed — and modifies nothing except the sub-intent
with that id and its transition expectation. -/
theorem c6_signer_failure_frame (st : Orderbook) (id : Nat)
    (hpw : alookup st.pending_withdrawals id = none) :
    ∃ st', on_signed st id false = some st' ∧
      st'.balances = st.balances ∧
      st'.intents = st.intents ∧
      st'.pending_withdrawals = st.pending_withdrawals ∧
      st'.next_id = st.next_id ∧
      (∀ j, j ≠ id → alookup st'.sub_intents j = alookup st.sub_intents j) ∧
      (∀ j, j ≠ id → alookup st'.transition_expectations j = alookup st.transition_expectations j) := by
  cases hsub : alookup st.sub_intents id with
  | some sub =>
    simp only [on_signed, hsub, hpw]
    refine ⟨_, rfl, rfl, rfl, rfl, rfl, ?_, ?_⟩
    · intro j hj
      exact alookup_ainsert_ne _ _ hj
    · intro j hj
      exact alookup_aremove_ne _ hj
  | none =>
    simp only [on_signed, hsub, hpw]
    exact ⟨_, rfl, rfl, rfl, rfl, rfl, fun j _ => rfl, fun j _ => rfl⟩

/-- Witness for claim C6 at a concrete input. -/
theorem c6_signer_failure_frame_witness :
    ∃ st', on_signed c6St 2 false = some st' ∧
      st'.balances = c6St.balances ∧
      st'.intents = c6St.intents ∧
      st'.pending_withdrawals = c6St.pending_withdrawals ∧
      st'.next_id = c6St.next_id ∧
      (∀ j, j ≠ 2 → alookup st'.sub_intents j = alookup c6St.sub_intents j) ∧
      (∀ j, j ≠ 2 → alookup st'.transition_expectations j = alookup c6St.transition_expectations j) :=
  c6_signer_failure_frame c6St 2 (by decide)

theorem processLeg_eq_some {st : Orderbook} {solver : String} {net : List (String × Int)}
    {m : MatchParams} {out : Orderbook × List (String × Int)}
    (h : processLeg st solver net m = some out) :
    ∃ intent, alookup st.intents m.intent_id = some intent ∧
      leg_checks_for st net m intent ∧
      out.1.intents = ainsert st.intents m.intent_id (legUpdated intent m.fill_amount) ∧
      out.1.next_id = st.next_id + 1 := by
  unfold processLeg at h
  split at h <;> try exact Option.noConfusion h
  rename_i intent ha
  split at h <;> try exact Option.noConfusion h
  rename_i hopen
  split at h <;> try exact Option.noConfusion h
  rename_i remaining hrem
  split at h <;> try exact Option.noConfusion h
  rename_i hfill
  split at h <;> try exact Option.noConfusion h
  rename_i lhs rhs hm1 hm2
  split at h <;> try exact Option.noConfusion h
  rename_i hprice
  split at h <;> try exact Option.noConfusion h
  rename_i s1 hadd
  split at h <;> try exact Option.noConfusion h
  rename_i d1 hsubI
  split at h <;> try exact Option.noConfusion h
  rename_i st3 htr
  obtain ⟨hle, hremv⟩ := checkedSubU128_eq_some.mp hrem
  subst hremv
  obtain ⟨hb1, rfl⟩ := checkedMulU128_eq_some.mp hm1
  obtain ⟨hb2, rfl⟩ := checkedMulU128_eq_some.mp hm2
  obtain ⟨hr1, rfl⟩ := checkedAddI128_eq_some.mp hadd
  obtain ⟨hr2, rfl⟩ := checkedSubI128_eq_some.mp hsubI
  obtain ⟨hfit, rfl⟩ := internal_transfer_eq_some.mp htr
  obtain rfl := Option.some.inj h
  exact ⟨intent, ha, ⟨hopen, hle, hfill, hb1, hb2, hprice, hr1, hr2, hfit⟩, rfl, rfl⟩

theorem processLeg_of_checks {st : Orderbook} (solver : String) {net : List (String × Int)}
    {m : MatchParams} (hc : leg_checks st net m) :
    (processLeg st solver net m).isSome = true := by
  obtain ⟨intent, ha, hopen, hle, hfill, hb1, hb2, hprice, hr1, hr2, hfit⟩ := hc
  have hrem : checkedSubU128 intent.src_amount intent.filled_amount =
      some (intent.src_amount - intent.filled_amount) :=
    checkedSubU128_eq_some.mpr ⟨hle, rfl⟩
  have hm1 : checkedMulU128 m.get_amount intent.src_amount =
      some (m.get_amount * intent.src_amount) :=
    checkedMulU128_eq_some.mpr ⟨hb1, rfl⟩
  have hm2 : checkedMulU128 m.fill_amount intent.dst_amount =
      some (m.fill_amount * intent.dst_amount) :=
    checkedMulU128_eq_some.mpr ⟨hb2, rfl⟩
  have hadd : checkedAddI128 ((alookup net intent.src_asset).getD 0) (wrapI128 m.fill_amount) =
      some ((alookup net intent.src_asset).getD 0 + wrapI128 m.fill_amount) :=
    checkedAddI128_eq_some.mpr ⟨hr1, rfl⟩
  have hsubI : checkedSubI128
      ((alookup (ainsert net intent.src_asset
        ((alookup net intent.src_asset).getD 0 + wrapI128 m.fill_amount))
        intent.dst_asset).getD 0) (wrapI128 m.get_amount) =
      some ((alookup (ainsert net intent.src_asset
        ((alookup net intent.src_asset).getD 0 + wrapI128 m.fill_amount))
        intent.dst_asset).getD 0 - wrapI128 m.get_amount) :=
    checkedSubI128_eq_some.mpr ⟨hr2, rfl⟩
  have hcredit : checkedAddU128
      ((alookup ((alookup st.balances intent.maker).getD []) intent.dst_asset).getD 0)
      m.get_amount =
      some ((alookup ((alookup st.balances intent.maker).getD []) intent.dst_asset).getD 0 +
        m.get_amount) :=
    checkedAddU128_eq_some.mpr ⟨hfit, rfl⟩
  simp [processLeg, ha, hopen, hrem, hfill, hm1, hm2, hprice, hadd, hsubI,
    internal_transfer, hcredit]

theorem processLeg_isSome_iff {st : Orderbook} (solver : String) {net : List (String × Int)}
    {m : MatchParams} :
    (processLeg st solver net m).isSome = true ↔ leg_checks st net m := by
  constructor
  · intro h
    obtain ⟨out, hout⟩ := Option.isSome_iff_exists.mp h
    obtain ⟨intent, ha, hcf, _, _⟩ := processLeg_eq_some hout
    exact ⟨intent, ha, hcf⟩
  · exact processLeg_of_checks solver

theorem processLegs_isSome_iff (solver : String) (ms : List MatchParams) :
    ∀ (st : Orderbook) (net : List (String × Int)),
    (processLegs solver st net ms).isSome = true ↔ legs_ok solver st net ms := by
  induction ms with
  | nil =>
    intro st net
    simp [processLegs, legs_ok]
  | cons m rest ih =>
    intro st net
    constructor
    · intro h
      rw [processLegs] at h
      cases hleg : processLeg st solver net m with
      | none => rw [hleg] at h; simp at h
      | some p =>
        rw [hleg] at h
        have h' : (processLegs solver p.1 p.2 rest).isSome = true := h
        refine ⟨(processLeg_isSome_iff solver).mp (by rw [hleg]; rfl), ?_⟩
        intro p' hp'
        rw [hleg] at hp'
        obtain rfl := Option.some.inj hp'
        exact (ih p.1 p.2).mp h'
    · rintro ⟨hchk, hrest⟩
      have hsome := processLeg_of_checks solver hchk
      obtain ⟨p, hp⟩ := Option.isSome_iff_exists.mp hsome
      rw [processLegs, hp]
      show (processLegs solver p.1 p.2 rest).isSome = true
      exact (ih p.1 p.2).mpr (hrest p hp)

/-- Claim C2: the batch commits (returns a post-state) iff the batch size is
within 2..6, every per-leg check passes in sequence, and the global
conservation check on the accumulated net map passes.  In this embedding a
failed batch returns `none` — the transaction panic of the source, after
which the NEAR runtime discards every mutation of the call — so the iff is
exactly the all-or-nothing commit of the claim. -/
theorem c2_batch_match_atomicity (st : Orderbook) (solver : String) (ms : List MatchParams) :
    (batch_match_intents st solver ms).isSome = true ↔
    (2 ≤ ms.length ∧ ms.length ≤ 6 ∧ legs_ok solver st [] ms ∧
     ∃ p, processLegs solver st [] ms = some p ∧ conservation_ok p.2 = true) := by
  unfold batch_match_intents
  by_cases hsz : 2 ≤ ms.length ∧ ms.length ≤ 6
  · rw [if_pos hsz]
    cases hpl : processLegs solver st [] ms with
    | none =>
      constructor
      · intro h
        simp at h
      · rintro ⟨_, _, _, p, hp, _⟩
        exact Option.noConfusion hp
    | some p =>
      constructor
      · intro h
        by_cases hco : conservation_ok p.2 = true
        · exact ⟨hsz.1, hsz.2,
            (processLegs_isSome_iff solver ms st []).mp (by rw [hpl]; rfl), p, rfl, hco⟩
        · exfalso
          have h' : (if conservation_ok p.2 then some p.1 else (none : Option Orderbook)).isSome = true := h
          rw [if_neg hco] at h'
          simp at h'
      · rintro ⟨_, _, _, q, hq, hco⟩
        obtain rfl : p = q := Option.some.inj hq
        show (if conservation_ok p.2 then some p.1 else (none : Option Orderbook)).isSome = true
        rw [if_pos hco]
        rfl
  · rw [if_neg hsz]
    constructor
    · intro h
      simp at h
    · rintro ⟨h1, h2, _⟩
      exact absurd ⟨h1, h2⟩ hsz

/-- Witness for claim C2: the iff instantiated at the concrete mirror-swap
batch. -/
theorem c2_batch_match_atomicity_witness :
    (batch_match_intents mirrorSt "solver" mirrorBatch).isSome = true ↔
    (2 ≤ mirrorBatch.length ∧ mirrorBatch.length ≤ 6 ∧
     legs_ok "solver" mirrorSt [] mirrorBatch ∧
     ∃ p, processLegs "solver" mirrorSt [] mirrorBatch = some p ∧
       conservation_ok p.2 = true) :=
  c2_batch_match_atomicity mirrorSt "solver" mirrorBatch

theorem processLeg_core {st : Orderbook} {solver : String} {net : List (String × Int)}
    {m : MatchParams} {out : Orderbook × List (String × Int)}
    (h : processLeg st solver net m = some out) :
    ∀ j i₁, alookup out.1.intents j = some i₁ →
      ∃ i₀, alookup st.intents j = some i₀ ∧ i₀.maker = i₁.maker ∧
        i₀.src_asset = i₁.src_asset ∧ i₀.src_amount = i₁.src_amount ∧
        i₀.dst_asset = i₁.dst_asset ∧ i₀.dst_amount = i₁.dst_amount := by
  obtain ⟨intent, ha, _, hint, _⟩ := processLeg_eq_some h
  intro j i₁ hj
  rw [hint] at hj
  by_cases hid : j = m.intent_id
  · subst hid
    rw [alookup_ainsert_self] at hj
    obtain rfl := Option.some.inj hj
    exact ⟨intent, ha, rfl, rfl, rfl, rfl, rfl⟩
  · rw [alookup_ainsert_ne _ _ hid] at hj
    exact ⟨i₁, hj, rfl, rfl, rfl, rfl, rfl⟩

theorem processLegs_price (solver : String) (ms : List MatchParams) :
    ∀ (st : Orderbook) (net : List (String × Int)) (out : Orderbook × List (String × Int)),
    processLegs solver st net ms = some out →
    ∀ m ∈ ms, ∃ i, alookup st.intents m.intent_id = some i ∧
      m.get_amount * i.src_amount < TWO128 ∧
      m.fill_amount * i.dst_amount < TWO128 ∧
      m.fill_amount * i.dst_amount ≤ m.get_amount * i.src_amount := by
  induction ms with
  | nil =>
    intro st net out h m hm
    exact absurd hm (List.not_mem_nil m)
  | cons m0 rest ih =>
    intro st net out h m hm
    rw [processLegs] at h
    cases hleg : processLeg st solver net m0 with
    | none => rw [hleg] at h; exact Option.noConfusion h
    | some p =>
      rw [hleg] at h
      have h' : processLegs solver p.1 p.2 rest = some out := h
      rcases List.mem_cons.mp hm with rfl | hm'
      · obtain ⟨intent, ha, hcf, _, _⟩ := processLeg_eq_some hleg
        exact ⟨intent, ha, hcf.2.2.2.1, hcf.2.2.2.2.1, hcf.2.2.2.2.2.1⟩
      · obtain ⟨i₁, ha₁, hp1, hp2, hp3⟩ := ih p.1 p.2 out h' m hm'
        obtain ⟨i₀, ha₀, _, _, hsrc, _, hdst⟩ := processLeg_core hleg m.intent_id i₁ ha₁
        exact ⟨i₀, ha₀, by rw [hsrc]; exact hp1, by rw [hdst]; exact hp2,
          by rw [hsrc, hdst]; exact hp3⟩

/-- Claim C3: every leg of an accepted batch satisfies the maker-price bound
`get_amount · src_amount ≥ fill_amount · dst_amount` for its intent's posted
amounts (read in the pre-batch state — a batch leg never changes
`src_amount` / `dst_amount`), and both products fit in `u128` — a leg whose
price check or whose wide products would overflow fails the whole batch,
which is the contrapositive of this statement. -/
theorem c3_price_check (st : Orderbook) (solver : String) (ms : List MatchParams)
    (h : (batch_match_intents st solver ms).isSome = true) :
    ∀ m ∈ ms, ∃ i, alookup st.intents m.intent_id = some i ∧
      m.get_amount * i.src_amount < TWO128 ∧
      m.fill_amount * i.dst_amount < TWO128 ∧
      m.fill_amount * i.dst_amount ≤ m.get_amount * i.src_amount := by
  unfold batch_match_intents at h
  by_cases hsz : 2 ≤ ms.length ∧ ms.length ≤ 6
  · rw [if_pos hsz] at h
    cases hpl : processLegs solver st [] ms with
    | none => rw [hpl] at h; simp at h
    | some p => exact processLegs_price solver ms st [] p hpl
  · rw [if_neg hsz] at h
    simp at h

/-- Witness for claim C3: the mirror-swap batch is accepted and every leg
satisfies the price bound. -/
theorem c3_price_check_witness :
    (batch_match_intents mirrorSt "solver" mirrorBatch).isSome = true ∧
    ∀ m ∈ mirrorBatch, ∃ i, alookup mirrorSt.intents m.intent_id = some i ∧
      m.get_amount * i.src_amount < TWO128 ∧
      m.fill_amount * i.dst_amount < TWO128 ∧
      m.fill_amount * i.dst_amount ≤ m.get_amount * i.src_amount :=
  ⟨by decide, c3_price_check mirrorSt "solver" mirrorBatch (by decide)⟩

theorem legUpdated_inv {intent : Intent} {fill : Nat}
    (hnf : intent.status ≠ IntentStatus.Filled)
    (hle : intent.filled_amount ≤ intent.src_amount)
    (hfill : fill ≤ intent.src_amount - intent.filled_amount) :
    IntentInv (legUpdated intent fill) := by
  refine ⟨?_, ?_⟩
  · simp only [legUpdated]
    omega
  · simp only [legUpdated]
    by_cases heq : intent.filled_amount + fill = intent.src_amount
    · simp [heq]
    · simp [heq, hnf]

theorem intentInv_insert {l : List (Nat × Intent)} {j : Nat} {i : Intent}
    (hall : ∀ k v, alookup l k = some v → IntentInv v) (hi : IntentInv i) :
    ∀ k v, alookup (ainsert l j i) k = some v → IntentInv v := by
  intro k v hk
  by_cases hkj : k = j
  · subst hkj
    rw [alookup_ainsert_self] at hk
    obtain rfl := Option.some.inj hk
    exact hi
  · rw [alookup_ainsert_ne _ _ hkj] at hk
    exact hall k v hk

theorem make_intent_eq_some_intents {st : Orderbook} {maker sa : String} {samt : Nat}
    {da : String} {damt : Nat} {out : Orderbook × Nat}
    (h : make_intent st maker sa samt da damt = some out) :
    out.1.intents = ainsert st.intents st.next_id
      ⟨st.next_id, maker, sa, samt, 0, da, damt, IntentStatus.Open⟩ := by
  unfold make_intent at h
  split at h <;> try exact Option.noConfusion h
  split at h <;> try exact Option.noConfusion h
  obtain rfl := Option.some.inj h
  rfl

theorem take_intent_eq_some {st : Orderbook} {taker : String} {intent_id amount : Nat}
    {out : Orderbook × Nat} (h : take_intent st taker intent_id amount = some out) :
    ∃ intent, alookup st.intents intent_id = some intent ∧
      intent.status ≠ IntentStatus.Filled ∧
      intent.filled_amount ≤ intent.src_amount ∧
      amount ≤ intent.src_amount - intent.filled_amount ∧
      out.1.intents = ainsert st.intents intent_id (legUpdated intent amount) := by
  unfold take_intent at h
  split at h <;> try exact Option.noConfusion h
  rename_i intent ha
  split at h <;> try exact Option.noConfusion h
  rename_i hnf
  split at h <;> try exact Option.noConfusion h
  rename_i remaining hrem
  split at h <;> try exact Option.noConfusion h
  rename_i hfill
  obtain ⟨hle, hremv⟩ := checkedSubU128_eq_some.mp hrem
  subst hremv
  obtain rfl := Option.some.inj h
  exact ⟨intent, ha, hnf, hle, hfill, rfl⟩

theorem processLeg_inv {st : Orderbook} {solver : String} {net : List (String × Int)}
    {m : MatchParams} {out : Orderbook × List (String × Int)}
    (h : processLeg st solver net m = some out) (hall : IntentInvAll st) :
    IntentInvAll out.1 := by
  obtain ⟨intent, ha, hcf, hint, _⟩ := processLeg_eq_some h
  intro j i hj
  rw [hint] at hj
  refine intentInv_insert hall (legUpdated_inv ?_ hcf.2.1 hcf.2.2.1) j i hj
  rw [hcf.1]
  simp

theorem processLegs_inv (solver : String) (ms : List MatchParams) :
    ∀ (st : Orderbook) (net : List (String × Int)) (out : Orderbook × List (String × Int)),
    processLegs solver st net ms = some out → IntentInvAll st → IntentInvAll out.1 := by
  induction ms with
  | nil =>
    intro st net out h hall
    rw [processLegs] at h
    obtain rfl := Option.some.inj h
    exact hall
  | cons m0 rest ih =>
    intro st net out h hall
    rw [processLegs] at h
    cases hleg : processLeg st solver net m0 with
    | none => rw [hleg] at h; exact Option.noConfusion h
    | some p =>
      rw [hleg] at h
      have h' : processLegs solver p.1 p.2 rest = some out := h
      exact ih p.1 p.2 out h' (processLeg_inv hleg hall)

/-- Claim C8 counterexample: `make_intent` with `src_amount = 0` (it performs
no positivity check, see C10) establishes an intent violating
`status = Filled ↔ filled_amount = src_amount`: the stored intent has
`filled_amount = src_amount = 0` yet status `Open`. -/
theorem c8_counterexample :
    make_intent c8St "alice" "SOL" 0 "ETH" 1 = some (c8Out, 0) ∧
    alookup c8Out.intents 0 = some ⟨0, "alice", "SOL", 0, 0, "ETH", 1, IntentStatus.Open⟩ ∧
    ¬ IntentInv ⟨0, "alice", "SOL", 0, 0, "ETH", 1, IntentStatus.Open⟩ := by
  refine ⟨by decide, by decide, ?_⟩
  unfold IntentInv
  decide

/-- Claim C8 as amended: the invariant `filled_amount ≤ src_amount ∧
(status = Filled ↔ filled_amount = src_amount)` over all stored intents is
established by `make_intent` whenever the posted `src_amount` is positive, and
is preserved unconditionally by `take_intent` and by every leg of
`batch_match_intents`; with `src_amount = 0` `make_intent` instead stores an
intent with `filled_amount = src_amount` and status `Open`. -/
theorem c8_intent_invariant_amended :
    (∀ (st : Orderbook) (maker sa : String) (samt : Nat) (da : String) (damt : Nat)
       (out : Orderbook × Nat), 0 < samt →
       make_intent st maker sa samt da damt = some out →
       IntentInvAll st → IntentInvAll out.1) ∧
    (∀ (st : Orderbook) (taker : String) (iid amt : Nat) (out : Orderbook × Nat),
       take_intent st taker iid amt = some out →
       IntentInvAll st → IntentInvAll out.1) ∧
    (∀ (st : Orderbook) (solver : String) (ms : List MatchParams) (st' : Orderbook),
       batch_match_intents st solver ms = some st' →
       IntentInvAll st → IntentInvAll st') := by
  refine ⟨?_, ?_, ?_⟩
  · intro st maker sa samt da damt out hpos h hall j i hj
    rw [make_intent_eq_some_intents h] at hj
    refine intentInv_insert hall ⟨Nat.zero_le _, ?_⟩ j i hj
    constructor
    · intro hh
      exact absurd hh (by simp)
    · intro hh
      have h0 : (0 : Nat) = samt := hh
      omega
  · intro st taker iid amt out h hall j i hj
    obtain ⟨intent, ha, hnf, hle, hfill, hint⟩ := take_intent_eq_some h
    rw [hint] at hj
    exact intentInv_insert hall (legUpdated_inv hnf hle hfill) j i hj
  · intro st solver ms st' h hall
    unfold batch_match_intents at h
    split at h <;> try exact Option.noConfusion h
    split at h <;> try exact Option.noConfusion h
    rename_i p hpl
    split at h <;> try exact Option.noConfusion h
    obtain rfl := Option.some.inj h
    exact processLegs_inv solver ms st [] p hpl hall

/-- Witness for the amended claim C8: the invariant after a positive-amount
`make_intent` on the concrete state `c8St`. -/
theorem c8_intent_invariant_amended_witness :
    IntentInvAll
      (⟨[("alice", [("ETH", 4)])],
        [(0, ⟨0, "alice", "ETH", 1, 0, "SOL", 2, IntentStatus.Open⟩)],
        [], [], [], 1⟩ : Orderbook) :=
  c8_intent_invariant_amended.1 c8St "alice" "ETH" 1 "SOL" 2
    (⟨[("alice", [("ETH", 4)])],
      [(0, ⟨0, "alice", "ETH", 1, 0, "SOL", 2, IntentStatus.Open⟩)],
      [], [], [], 1⟩, 0)
    (by decide) (by decide) (fun j i hj => nomatch hj)
